import Mathlib

/-!
Verification development for the go-ldap/ldap client library.

The definitions below are shallow embeddings of the Go sources of the
repository.  Each definition carries a comment naming the Go file and
function it is translated from.  Go strings indexed byte-wise are modelled
as `List Char` (one `Char` per byte; every input appearing in a theorem is
ASCII, where the two notions coincide).  A Go function returning
`(value, *Error)` is modelled by `GoResult`; a pending runtime panic
(index out of range) is modelled by the constructor `GoResult.panicked`,
and a Go `defer`/`recover` block by `GoResult.recoverAs`, placed exactly
where the source has one.
-/

namespace Ldap

/-- Result of a Go function call: a value, an `*Error` carrying one of the
package error codes, or a runtime panic that is still unwinding. -/
inductive GoResult (α : Type) : Type where
  | ok (val : α)
  | err (code : Nat)
  | panicked
deriving DecidableEq

/-- Sequencing of Go calls: errors and panics short-circuit. -/
def GoResult.bind : GoResult α → (α → GoResult β) → GoResult β
  | .ok a, f => f a
  | .err c, _ => .err c
  | .panicked, _ => .panicked

instance : Monad GoResult where
  pure := .ok
  bind := GoResult.bind

/-- Models a deferred `recover()` that converts a panic into
`NewError(code, ...)`, as in filter.go `compileFilter` / `DecompileFilter`. -/
def GoResult.recoverAs (code : Nat) : GoResult α → GoResult α
  | .panicked => .err code
  | r => r

/-- Package error codes (error.go of the repository; the numeric values are
the ones documented in the migration notes and test expectations:
`LDAP Result Code 201 "Filter Compile Error"`, code 206 for
`ErrorEmptyPassword`). -/
def ErrorNetwork : Nat := 200

def ErrorFilterCompile : Nat := 201

def ErrorFilterDecompile : Nat := 202

def ErrorDebugging : Nat := 203

def ErrorEmptyPassword : Nat := 206

/-- Filter tags from filter.go. -/
def FilterAnd : Nat := 0

def FilterOr : Nat := 1

def FilterNot : Nat := 2

def FilterEqualityMatch : Nat := 3

def FilterSubstrings : Nat := 4

def FilterGreaterOrEqual : Nat := 5

def FilterLessOrEqual : Nat := 6

def FilterPresent : Nat := 7

def FilterApproxMatch : Nat := 8

def FilterExtensibleMatch : Nat := 9

def FilterSubstringsInitial : Nat := 0

def FilterSubstringsAny : Nat := 1

def FilterSubstringsFinal : Nat := 2

/-- BER class octets of the asn1-ber package. -/
def ClassUniversal : Nat := 0

def ClassApplication : Nat := 64

def ClassContext : Nat := 128

/-- BER universal tags used by the client. -/
def TagInteger : Nat := 2

def TagOctetString : Nat := 4

def TagSequence : Nat := 16

/-- Model of `ber.Packet`: class, constructed flag (`ber.TypeConstructed`
versus `ber.TypePrimative`), tag, primitive data bytes, and children.
The `Description` field of the Go packet is not modelled: it never takes
part in encoding or decompilation (note: filter.go line 200 stores the
`FilterLessOrEqual` description on an `FilterApproxMatch` packet, a slip
that is invisible here precisely because descriptions are cosmetic). -/
inductive BerPacket : Type where
  | mk (cls : Nat) (constructed : Bool) (tag : Nat) (data : List Char)
      (children : List BerPacket)

namespace BerPacket

def tag : BerPacket → Nat
  | .mk _ _ t _ _ => t

def data : BerPacket → List Char
  | .mk _ _ _ d _ => d

def children : BerPacket → List BerPacket
  | .mk _ _ _ _ ch => ch

end BerPacket

/-- Models `ber.Encode(cls, ber.TypeConstructed, tag, nil, desc)`:
a constructed packet with no data and no children yet. -/
def berEncode (cls : Nat) (tag : Nat) : BerPacket := .mk cls true tag [] []

/-- Models `ber.NewString(cls, ber.TypePrimative, tag, s, desc)`. -/
def berNewString (cls : Nat) (tag : Nat) (s : List Char) : BerPacket :=
  .mk cls false tag s []

/-- BER definite-length octets (lengths below 65536 suffice here). -/
def berLen (n : Nat) : List Nat :=
  if n < 128 then [n]
  else if n < 256 then [129, n]
  else [130, n / 256, n % 256]

mutual

/-- Byte serialization of a packet (`packet.Bytes()` in the asn1-ber
package): identifier octet, definite length, then primitive data followed
by the serialized children.  Chars stand for bytes via `Char.toNat`. -/
def berBytes : BerPacket → List Nat
  | .mk cls constructed tag data children =>
    let content := data.map Char.toNat ++ berBytesList children
    (cls + (if constructed then 32 else 0) + tag) :: (berLen content.length ++ content)

def berBytesList : List BerPacket → List Nat
  | [] => []
  | p :: ps => berBytes p ++ berBytesList ps

end

/-- Models `filter[pos]`: in-bounds read or an index-out-of-range panic. -/
def strIndex (s : List Char) (pos : Nat) : GoResult Char :=
  match s.get? pos with
  | some c => .ok c
  | none => .panicked

/-- The item loop of filter.go `compileFilter` (lines 187-206): scans until
`)` or the end of the filter, building the attribute, the comparator tag
(`p`), and the condition.  The `>=`, `<=` and `~=` lookaheads read
`filter[new_pos+1]` and hence can panic at the end of the string, exactly
as the source.  The switch checks `p != nil` first, so once the comparator
is chosen every byte goes to the condition.  `fuel` only bounds the
recursion; each iteration advances `pos` by 1 or 2 and the loop runs while
`pos < s.length`, so any `fuel ≥ s.length + 1 - pos` is exact. -/
def itemLoop (fuel : Nat) (s : List Char) (pos : Nat) (ptag : Option Nat)
    (attr cond : List Char) : GoResult (Option Nat × List Char × List Char × Nat) :=
  match fuel with
  | 0 => .err ErrorFilterCompile
  | fuel + 1 =>
    if h : pos < s.length then
      let c := s.get ⟨pos, h⟩
      if c = ')' then .ok (ptag, attr, cond, pos)
      else if ptag.isSome then itemLoop fuel s (pos + 1) ptag attr (cond ++ [c])
      else if c = '=' then itemLoop fuel s (pos + 1) (some FilterEqualityMatch) attr cond
      else if c = '>' then
        (strIndex s (pos + 1)).bind fun c2 =>
          if c2 = '=' then itemLoop fuel s (pos + 2) (some FilterGreaterOrEqual) attr cond
          else itemLoop fuel s (pos + 1) ptag (attr ++ [c]) cond
      else if c = '<' then
        (strIndex s (pos + 1)).bind fun c2 =>
          if c2 = '=' then itemLoop fuel s (pos + 2) (some FilterLessOrEqual) attr cond
          else itemLoop fuel s (pos + 1) ptag (attr ++ [c]) cond
      else if c = '~' then
        (strIndex s (pos + 1)).bind fun c2 =>
          if c2 = '=' then itemLoop fuel s (pos + 2) (some FilterApproxMatch) attr cond
          else itemLoop fuel s (pos + 1) ptag (attr ++ [c]) cond
      else itemLoop fuel s (pos + 1) ptag (attr ++ [c]) cond
    else .ok (ptag, attr, cond, pos)

/-- The tail of the item case (filter.go lines 207-245): error checks, the
attribute child, the substring analysis of the condition, and the final
`new_pos++`.  Go checks `condition == "*"` before any indexing; the
subsequent `condition[0]` panics when the condition is empty, exactly as
in the source (e.g. for the input `(a=)`). -/
def finishItem (s : List Char) (ptag : Option Nat) (attr cond : List Char)
    (pos : Nat) : GoResult (BerPacket × Nat) :=
  if pos = s.length then .err ErrorFilterCompile
  else
    match ptag with
    | none => .err ErrorFilterCompile
    | some t =>
      let attrChild := berNewString ClassUniversal TagOctetString attr
      if t = FilterEqualityMatch ∧ cond = ['*'] then
        .ok (.mk ClassContext true FilterPresent [] [attrChild], pos + 1)
      else if t = FilterEqualityMatch ∧ cond = [] then
        .panicked
      else if t = FilterEqualityMatch ∧ cond.headI = '*' ∧ cond.getLastI = '*' then
        let seq := BerPacket.mk ClassUniversal true TagSequence []
          [berNewString ClassContext FilterSubstringsAny (cond.drop 1).dropLast]
        .ok (.mk ClassContext true FilterSubstrings [] [attrChild, seq], pos + 1)
      else if t = FilterEqualityMatch ∧ cond.headI = '*' then
        let seq := BerPacket.mk ClassUniversal true TagSequence []
          [berNewString ClassContext FilterSubstringsFinal (cond.drop 1)]
        .ok (.mk ClassContext true FilterSubstrings [] [attrChild, seq], pos + 1)
      else if t = FilterEqualityMatch ∧ cond.getLastI = '*' then
        let seq := BerPacket.mk ClassUniversal true TagSequence []
          [berNewString ClassContext FilterSubstringsInitial cond.dropLast]
        .ok (.mk ClassContext true FilterSubstrings [] [attrChild, seq], pos + 1)
      else
        let condChild := berNewString ClassUniversal TagOctetString cond
        .ok (.mk ClassContext true t [] [attrChild, condChild], pos + 1)

mutual

/-- filter.go `compileFilter` (lines 155-249).  Each invocation is wrapped
in `recoverAs ErrorFilterCompile`, mirroring the deferred `recover` at the
top of the Go function.  `fuel` bounds the recursion depth; every nested
call strictly advances the position, so `s.length + 2` (used by
`CompileFilter`) is always sufficient and the fuel-exhaustion branch is
unreachable from the exported entry point. -/
def compileFilter (fuel : Nat) (s : List Char) (pos : Nat) :
    GoResult (BerPacket × Nat) :=
  match fuel with
  | 0 => .err ErrorFilterCompile
  | fuel + 1 =>
    GoResult.recoverAs ErrorFilterCompile
      ((strIndex s pos).bind fun c =>
        if c = '(' then
          (compileFilter fuel s (pos + 1)).bind fun pr => .ok (pr.1, pr.2 + 1)
        else if c = '&' then
          (compileFilterSet fuel s (pos + 1) []).bind fun pr =>
            .ok (.mk ClassContext true FilterAnd [] pr.1, pr.2)
        else if c = '|' then
          (compileFilterSet fuel s (pos + 1) []).bind fun pr =>
            .ok (.mk ClassContext true FilterOr [] pr.1, pr.2)
        else if c = '!' then
          (compileFilter fuel s (pos + 1)).bind fun pr =>
            .ok (.mk ClassContext true FilterNot [] [pr.1], pr.2)
        else
          (itemLoop (s.length + 1) s pos none [] []).bind fun st =>
            finishItem s st.1 st.2.1 st.2.2.1 st.2.2.2)

/-- filter.go `compileFilterSet` (lines 139-153): parses `(`-led children
while present, appending each to the parent, then consumes the closing
byte.  The accumulated children are threaded explicitly.  Note the exact
exit logic of the source: the loop stops when the position is no longer
both in range and on a `(`; the error is raised only when the position
equals the length, so a position that has overrun the end (possible,
since the `(` case of `compileFilter` increments the returned position
unconditionally) falls through to `return pos + 1, nil`. -/
def compileFilterSet (fuel : Nat) (s : List Char) (pos : Nat)
    (acc : List BerPacket) : GoResult (List BerPacket × Nat) :=
  match fuel with
  | 0 => .err ErrorFilterCompile
  | fuel + 1 =>
    if h : pos < s.length then
      if s.get ⟨pos, h⟩ = '(' then
        (compileFilter fuel s (pos + 1)).bind fun pr =>
          compileFilterSet fuel s pr.2 (acc ++ [pr.1])
      else .ok (acc, pos + 1)
    else if pos = s.length then .err ErrorFilterCompile
    else .ok (acc, pos + 1)

end

/-- filter.go `CompileFilter` (lines 52-64): requires a leading `(`,
compiles from position 1, and rejects trailing input.  The rejection
message is built with `fmt.Sprint(filter[pos:])`: when the parser has
overrun the end of the string (`pos > len`), that slice expression
panics, and `CompileFilter` itself has no deferred recover, so the panic
escapes to the caller. -/
def CompileFilter (s : List Char) : GoResult BerPacket :=
  match s with
  | [] => .err ErrorFilterCompile
  | c :: _ =>
    if c ≠ '(' then .err ErrorFilterCompile
    else
      (compileFilter (s.length + 2) s 1).bind fun pr =>
        if pr.2 ≠ s.length then
          (if s.length < pr.2 then .panicked else .err ErrorFilterCompile)
        else .ok pr.1

mutual

/-- filter.go `DecompileFilter` (lines 66-137).  The whole body sits under
the deferred `recover` converting any index panic into
`ErrorFilterDecompile`; child accesses such as `packet.Children[0]` are
the panic sites.  A tag matched by no case falls through to `ret + ")"`,
yielding `()` without error, as in the source. -/
def DecompileFilter : BerPacket → GoResult (List Char)
  | .mk _ _ tag _ children =>
    GoResult.recoverAs ErrorFilterDecompile
      (if tag = FilterAnd then
         (decompileChildren children).bind fun cs => .ok ('(' :: '&' :: cs ++ [')'])
       else if tag = FilterOr then
         (decompileChildren children).bind fun cs => .ok ('(' :: '|' :: cs ++ [')'])
       else if tag = FilterNot then
         match children with
         | [] => .panicked
         | c :: _ =>
           (DecompileFilter c).bind fun cs => .ok ('(' :: '!' :: cs ++ [')'])
       else if tag = FilterSubstrings then
         match children with
         | c0 :: c1 :: _ =>
           match c1.children with
           | [] => .panicked
           | sub :: _ =>
             let mid :=
               if sub.tag = FilterSubstringsInitial then sub.data ++ ['*']
               else if sub.tag = FilterSubstringsAny then '*' :: sub.data ++ ['*']
               else if sub.tag = FilterSubstringsFinal then '*' :: sub.data
               else []
             .ok ('(' :: c0.data ++ '=' :: mid ++ [')'])
         | _ => .panicked
       else if tag = FilterEqualityMatch then
         match children with
         | c0 :: c1 :: _ => .ok ('(' :: c0.data ++ '=' :: c1.data ++ [')'])
         | _ => .panicked
       else if tag = FilterGreaterOrEqual then
         match children with
         | c0 :: c1 :: _ => .ok ('(' :: c0.data ++ '>' :: '=' :: c1.data ++ [')'])
         | _ => .panicked
       else if tag = FilterLessOrEqual then
         match children with
         | c0 :: c1 :: _ => .ok ('(' :: c0.data ++ '<' :: '=' :: c1.data ++ [')'])
         | _ => .panicked
       else if tag = FilterPresent then
         match children with
         | c0 :: _ => .ok ('(' :: c0.data ++ ['=', '*', ')'])
         | _ => .panicked
       else if tag = FilterApproxMatch then
         match children with
         | c0 :: c1 :: _ => .ok ('(' :: c0.data ++ '~' :: '=' :: c1.data ++ [')'])
         | _ => .panicked
       else .ok ['(', ')'])

/-- The `for _, child := range packet.Children` loops of the And / Or
cases: decompile each child, propagating the first error. -/
def decompileChildren : List BerPacket → GoResult (List Char)
  | [] => .ok []
  | c :: cs =>
    (DecompileFilter c).bind fun s =>
      (decompileChildren cs).bind fun rest => .ok (s ++ rest)

end

example : CompileFilter "(sn=Miller)".data =
    .ok (.mk ClassContext true FilterEqualityMatch []
      [berNewString ClassUniversal TagOctetString "sn".data,
       berNewString ClassUniversal TagOctetString "Miller".data]) := rfl

example :
    (CompileFilter "(sn=Mill*)".data).bind DecompileFilter =
      .ok "(sn=Mill*)".data := rfl

/-- The canonical filter set of the specification: one filter per listed
form (and, or, not, equality, substring initial / final / any,
greater-or-equal, less-or-equal, present, approx), the concrete instances
being the ones of filter_test.go. -/
def canonicalFilters : List String :=
  ["(&(sn=Miller)(givenName=Bob))",
   "(|(sn=Miller)(givenName=Bob))",
   "(!(sn=Miller))",
   "(sn=Miller)",
   "(sn=Mill*)",
   "(sn=*Mill)",
   "(sn=*Mill*)",
   "(sn>=Miller)",
   "(sn<=Miller)",
   "(sn=*)",
   "(sn~=Miller)"]

end Ldap

namespace Ldap

/-- Expected compiled form of a comparison item filter. -/
def simpleItem (t : Nat) (a v : String) : BerPacket :=
  .mk ClassContext true t []
    [berNewString ClassUniversal TagOctetString a.data,
     berNewString ClassUniversal TagOctetString v.data]

/-- Expected compiled form of a one-part substring filter. -/
def substrItem (sub : Nat) (a v : String) : BerPacket :=
  .mk ClassContext true FilterSubstrings []
    [berNewString ClassUniversal TagOctetString a.data,
     .mk ClassUniversal true TagSequence [] [berNewString ClassContext sub v.data]]

/-- Expected compiled form of a presence filter. -/
def presentItem (a : String) : BerPacket :=
  .mk ClassContext true FilterPresent []
    [berNewString ClassUniversal TagOctetString a.data]

/-- C1: Filter round-trip.  For every filter string in the canonical set
(and / or / not / equality / greater-or-equal / less-or-equal / approx /
present / substring forms), `CompileFilter` succeeds, and decompiling the
compiled packet returns the canonical form of the string (each canonical
instance already being in canonical form, the decompiler returns it
unchanged); moreover recompiling the decompiled string (which by the
second conjunct is the original string) yields a packet that serializes
to the same BER bytes as the compiled packet. -/
theorem filter_round_trip_canonical :
    ∀ s ∈ canonicalFilters, ∃ p,
      CompileFilter s.data = .ok p ∧
      DecompileFilter p = .ok s.data ∧
      ∃ p2, CompileFilter s.data = .ok p2 ∧ berBytes p2 = berBytes p := by
  intro s hs
  simp only [canonicalFilters, List.mem_cons, List.not_mem_nil, or_false] at hs
  rcases hs with rfl | rfl | rfl | rfl | rfl | rfl | rfl | rfl | rfl | rfl | rfl
  · exact ⟨.mk ClassContext true FilterAnd []
      [simpleItem FilterEqualityMatch "sn" "Miller",
       simpleItem FilterEqualityMatch "givenName" "Bob"], rfl, rfl, _, rfl, rfl⟩
  · exact ⟨.mk ClassContext true FilterOr []
      [simpleItem FilterEqualityMatch "sn" "Miller",
       simpleItem FilterEqualityMatch "givenName" "Bob"], rfl, rfl, _, rfl, rfl⟩
  · exact ⟨.mk ClassContext true FilterNot []
      [simpleItem FilterEqualityMatch "sn" "Miller"], rfl, rfl, _, rfl, rfl⟩
  · exact ⟨simpleItem FilterEqualityMatch "sn" "Miller", rfl, rfl, _, rfl, rfl⟩
  · exact ⟨substrItem FilterSubstringsInitial "sn" "Mill", rfl, rfl, _, rfl, rfl⟩
  · exact ⟨substrItem FilterSubstringsFinal "sn" "Mill", rfl, rfl, _, rfl, rfl⟩
  · exact ⟨substrItem FilterSubstringsAny "sn" "Mill", rfl, rfl, _, rfl, rfl⟩
  · exact ⟨simpleItem FilterGreaterOrEqual "sn" "Miller", rfl, rfl, _, rfl, rfl⟩
  · exact ⟨simpleItem FilterLessOrEqual "sn" "Miller", rfl, rfl, _, rfl, rfl⟩
  · exact ⟨presentItem "sn", rfl, rfl, _, rfl, rfl⟩
  · exact ⟨simpleItem FilterApproxMatch "sn" "Miller", rfl, rfl, _, rfl, rfl⟩

/-- C2: evaluation of the compiler on multi-star substring values.  The
condition analysis of filter.go (lines 216-243) looks only at the first
and last byte of the value: `(cn=*a*b*)` compiles to a Substrings filter
with the SINGLE any-part `a*b` (not the two any-parts `a` and `b` that the
specification and the modern tests describe), and `(sn=Mi*l*r)` — whose
value neither starts nor ends with `*` — compiles to an EqualityMatch
filter with the literal value `Mi*l*r` instead of a Substrings filter,
contradicting the expectation recorded in filter_test.go.  The presence
half of the claim does hold: `(cn=*)` compiles to a Present filter. -/
theorem filter_substrings_code_eval :
    CompileFilter "(cn=*a*b*)".data = .ok (substrItem FilterSubstringsAny "cn" "a*b") ∧
    CompileFilter "(sn=Mi*l*r)".data = .ok (simpleItem FilterEqualityMatch "sn" "Mi*l*r") ∧
    CompileFilter "(cn=*)".data = .ok (presentItem "cn") ∧
    substrItem FilterSubstringsAny "cn" "a*b" ≠
      .mk ClassContext true FilterSubstrings []
        [berNewString ClassUniversal TagOctetString "cn".data,
         .mk ClassUniversal true TagSequence []
           [berNewString ClassContext FilterSubstringsAny "a".data,
            berNewString ClassContext FilterSubstringsAny "b".data]] :=
  ⟨rfl, rfl, rfl, by intro h; injection h with h1 h2 h3 h4 h5; simp at h5⟩

/-- A recovered call never leaves a panic pending. -/
theorem recoverAs_ne_panicked (c : Nat) (r : GoResult α) :
    GoResult.recoverAs c r ≠ .panicked := by
  cases r <;> simp [GoResult.recoverAs]

/-- An error escaping a recovered call is either the recovery error or an
error of the wrapped computation. -/
theorem recoverAs_err (c : Nat) (r : GoResult α) (code : Nat)
    (h : GoResult.recoverAs c r = .err code) : code = c ∨ r = .err code := by
  cases r with
  | ok a => simp [GoResult.recoverAs] at h
  | err c2 =>
    simp only [GoResult.recoverAs] at h
    right
    exact h
  | panicked =>
    simp only [GoResult.recoverAs, GoResult.err.injEq] at h
    left
    exact h.symm

/-- Case analysis for an error escaping a bind. -/
theorem bind_err (r : GoResult α) (f : α → GoResult β) (code : Nat)
    (h : r.bind f = .err code) :
    r = .err code ∨ ∃ a, r = .ok a ∧ f a = .err code := by
  cases r <;> simp [GoResult.bind] at h ⊢ <;> simp [h]

/-- Case analysis for a panic escaping a bind. -/
theorem bind_panicked (r : GoResult α) (f : α → GoResult β)
    (h : r.bind f = .panicked) :
    r = .panicked ∨ ∃ a, r = .ok a ∧ f a = .panicked := by
  cases r <;> simp [GoResult.bind] at h ⊢ <;> simp [h]

/-- Byte reads never produce an error value (only success or a panic). -/
theorem strIndex_ne_err (s : List Char) (pos : Nat) (c : Nat) :
    strIndex s pos ≠ .err c := by
  unfold strIndex
  cases s.get? pos <;> simp

/-- Every error produced by the item loop is a filter compile error. -/
theorem itemLoop_err_code (s : List Char) :
    ∀ fuel pos ptag attr cond code,
      itemLoop fuel s pos ptag attr cond = .err code → code = ErrorFilterCompile := by
  intro fuel
  induction fuel with
  | zero =>
    intro pos ptag attr cond code h
    simp only [itemLoop, GoResult.err.injEq] at h
    exact h.symm
  | succ n ih =>
    intro pos ptag attr cond code h
    simp only [itemLoop] at h
    split at h
    case isTrue hlt =>
      split_ifs at h <;>
        first
          | exact ih _ _ _ _ _ h
          | (rcases bind_err _ _ _ h with h7 | ⟨a, ha, h7⟩
             · exact absurd h7 (strIndex_ne_err _ _ _)
             · split_ifs at h7 <;> exact ih _ _ _ _ _ h7)
          | simp at h
    case isFalse => simp at h

/-- Every error produced by the item epilogue is a filter compile error. -/
theorem finishItem_err_code (s : List Char) (ptag : Option Nat)
    (attr cond : List Char) (pos code : Nat)
    (h : finishItem s ptag attr cond pos = .err code) : code = ErrorFilterCompile := by
  unfold finishItem at h
  split at h
  · simp only [GoResult.err.injEq] at h
    exact h.symm
  · split at h
    · simp only [GoResult.err.injEq] at h
      exact h.symm
    · split_ifs at h <;> simp at h

/-- A Go result that has settled: it is not a pending panic, and any error
it carries has the stated code. -/
def settledWith (c : Nat) (r : GoResult α) : Prop :=
  r ≠ .panicked ∧ ∀ c2, r = .err c2 → c2 = c

theorem settled_ok {c : Nat} {a : α} : settledWith c (GoResult.ok a) := by
  constructor <;> simp

theorem settled_err {c : Nat} : settledWith c (GoResult.err c : GoResult α) := by
  constructor <;> simp

theorem settled_bind {c : Nat} {r : GoResult α} {f : α → GoResult β}
    (hr : settledWith c r) (hf : ∀ a, settledWith c (f a)) :
    settledWith c (r.bind f) := by
  cases r with
  | ok a => exact hf a
  | err c2 =>
    have := hr.2 c2 rfl
    subst this
    exact settled_err
  | panicked => exact absurd rfl hr.1

/-- A recovered computation settles as soon as its errors carry the
recovery code (pending panics are converted by the recover). -/
theorem errOnly_recoverAs {c : Nat} {r : GoResult α}
    (h : ∀ c2, r = .err c2 → c2 = c) :
    settledWith c (GoResult.recoverAs c r) := by
  cases r with
  | ok a => exact settled_ok
  | err c2 =>
    have := h c2 rfl
    subst this
    exact settled_err
  | panicked => exact settled_err

/-- The filter compiler settles at every fuel level: it never leaves a
panic pending (the deferred recover converts index panics) and every
error it reports is a filter compile error. -/
theorem compileFilter_settled (s : List Char) : ∀ fuel,
    (∀ pos, settledWith ErrorFilterCompile (compileFilter fuel s pos)) ∧
    (∀ pos acc, settledWith ErrorFilterCompile (compileFilterSet fuel s pos acc)) := by
  intro fuel
  induction fuel with
  | zero =>
    constructor
    · intro pos
      simp only [compileFilter]
      exact settled_err
    · intro pos acc
      simp only [compileFilterSet]
      exact settled_err
  | succ n ih =>
    constructor
    · intro pos
      simp only [compileFilter]
      apply errOnly_recoverAs
      intro c2 h2
      rcases bind_err _ _ _ h2 with h3 | ⟨c, hc, h3⟩
      · exact absurd h3 (strIndex_ne_err _ _ _)
      · split_ifs at h3 <;>
          first
            | (rcases bind_err _ _ _ h3 with h4 | ⟨x, hx, h4⟩
               · first
                   | exact (ih.1 _).2 _ h4
                   | exact (ih.2 _ _).2 _ h4
                   | exact itemLoop_err_code s _ _ _ _ _ _ h4
               · first
                   | simp at h4
                   | exact finishItem_err_code s _ _ _ _ _ h4)
            | simp at h3
    · intro pos acc
      simp only [compileFilterSet]
      split
      · split
        · exact settled_bind (ih.1 _) (fun pr => ih.2 _ _)
        · exact settled_ok
      · split
        · exact settled_err
        · exact settled_ok

/-- Every error reported by the exported compiler entry point is a
filter compile error, and an escaping panic can arise only from the
trailing-input branch, when the parse ran past the end of the string
without error. -/
theorem CompileFilter_cases (s : List Char) :
    (∀ c2, CompileFilter s = .err c2 → c2 = ErrorFilterCompile) ∧
    (CompileFilter s = .panicked →
      ∃ pr, compileFilter (s.length + 2) s 1 = .ok pr ∧ s.length < pr.2) := by
  cases s with
  | nil =>
    constructor
    · intro c2 h
      simp only [CompileFilter, GoResult.err.injEq] at h
      exact h.symm
    · intro h
      simp [CompileFilter] at h
  | cons c rest =>
    by_cases hcp : c = '('
    · subst hcp
      rcases hc : compileFilter (('(' :: rest).length + 2) ('(' :: rest) 1
        with pr | c3 | h3
      · have hres : CompileFilter ('(' :: rest) =
            if pr.2 ≠ ('(' :: rest).length then
              (if ('(' :: rest).length < pr.2 then .panicked
               else .err ErrorFilterCompile)
            else .ok pr.1 := by
          simp only [CompileFilter, hc, GoResult.bind, ne_eq, not_true, if_false]
        constructor
        · intro c2 h
          rw [hres] at h
          split_ifs at h <;> simp_all
        · intro h
          rw [hres] at h
          split_ifs at h with h1 h2
          all_goals first
            | exact ⟨pr, hc, by omega⟩
            | simp_all
      · have hres : CompileFilter ('(' :: rest) = .err c3 := by
          simp only [CompileFilter, hc, GoResult.bind, ne_eq, not_true, if_false]
        constructor
        · intro c2 h
          rw [hres] at h
          obtain rfl : c3 = c2 := by simpa using h
          exact ((compileFilter_settled _ _).1 _).2 _ hc
        · intro h
          rw [hres] at h
          simp at h
      · exact absurd hc ((compileFilter_settled _ _).1 _).1
    · have hres : CompileFilter (c :: rest) = .err ErrorFilterCompile := by
        simp only [CompileFilter, if_pos hcp]
      constructor
      · intro c2 h
        rw [hres] at h
        simpa using h.symm
      · intro h
        rw [hres] at h
        simp at h

/-- The decompiler settles on every packet: the deferred recover converts
every child-access panic, and every reported error is a filter decompile
error.  Proved by the nested induction on packets and child lists. -/
theorem decompile_settled : ∀ p : BerPacket,
    settledWith ErrorFilterDecompile (DecompileFilter p) := by
  intro p
  refine @BerPacket.rec
    (fun q => settledWith ErrorFilterDecompile (DecompileFilter q))
    (fun ps => settledWith ErrorFilterDecompile (decompileChildren ps) ∧
      ∀ q ∈ ps, settledWith ErrorFilterDecompile (DecompileFilter q))
    ?_ ?_ ?_ p
  · intro cls k tag data children ihc
    rw [DecompileFilter.eq_def]
    apply errOnly_recoverAs
    intro c2 h2
    split_ifs at h2 <;>
      first
        | (rcases bind_err _ _ _ h2 with h3 | ⟨x, hx, h3⟩
           · exact ihc.1.2 _ h3
           · simp at h3)
        | (split at h2 <;>
            first
              | (rcases bind_err _ _ _ h2 with h3 | ⟨x, hx, h3⟩
                 · exact (ihc.2 _ (by simp)).2 _ h3
                 · simp at h3)
              | (split at h2 <;> simp at h2)
              | simp at h2)
        | simp at h2
  · refine ⟨?_, by simp⟩
    simp only [decompileChildren]
    exact settled_ok
  · intro hd tl ih1 ih2
    refine ⟨?_, ?_⟩
    · simp only [decompileChildren]
      exact settled_bind ih1 (fun a => settled_bind ih2.1 (fun b => settled_ok))
    · intro q hq
      rcases List.mem_cons.mp hq with rfl | hq2
      · exact ih1
      · exact ih2.2 q hq2

/-- C9: Filter engine totality fails on the compiler side.  On the input
`(&((a=b)` the parser overruns the end of the string without error (the
`(` case increments past the end and `compileFilterSet` returns
`pos + 1, nil` when `pos > len`), and the trailing-input error path of
`CompileFilter` then panics on the slice `filter[pos:]`, outside every
recover — so `CompileFilter` neither returns a packet nor an
`ErrorFilterCompile` error there.  The rest of the claim is real: the
recursive `compileFilter` never leaves a panic pending at any fuel (its
deferred recover converts the index panics, e.g. on `(a=)`), every error
anywhere in the engine carries the claimed code, and `DecompileFilter`
returns a string or an `ErrorFilterDecompile` error on every packet (a
childless Not packet exercising its recover). -/
theorem filter_engine_panic_eval :
    CompileFilter "(&((a=b)".data = .panicked ∧
    (∀ (fuel : Nat) (s : List Char) (pos : Nat),
      compileFilter fuel s pos ≠ .panicked) ∧
    (∀ s : List Char, ∀ c2, CompileFilter s = .err c2 → c2 = ErrorFilterCompile) ∧
    (∀ p : BerPacket,
      (∃ t, DecompileFilter p = .ok t) ∨ DecompileFilter p = .err ErrorFilterDecompile) ∧
    CompileFilter "(a=)".data = .err ErrorFilterCompile ∧
    DecompileFilter (.mk ClassContext true FilterNot [] []) = .err ErrorFilterDecompile := by
  refine ⟨rfl, fun fuel s pos => ((compileFilter_settled s fuel).1 pos).1,
    fun s => (CompileFilter_cases s).1, fun p => ?_, rfl, rfl⟩
  rcases hd : DecompileFilter p with t | c | _
  · exact Or.inl ⟨t, rfl⟩
  · exact Or.inr (by rw [(decompile_settled p).2 c hd])
  · exact absurd hd (decompile_settled p).1

/-- Witness for the round-trip theorem at the equality-match instance. -/
theorem filter_round_trip_canonical_witness :
    ∃ p, CompileFilter "(sn=Miller)".data = .ok p ∧
      DecompileFilter p = .ok "(sn=Miller)".data ∧
      ∃ p2, CompileFilter "(sn=Miller)".data = .ok p2 ∧ berBytes p2 = berBytes p :=
  filter_round_trip_canonical "(sn=Miller)" (by simp [canonicalFilters])

end Ldap

namespace Ldap

/-- dn.go: attribute type and value of a relative DN component. -/
structure AttributeTypeAndValue where
  attrType : String
  attrValue : String
deriving DecidableEq

/-- dn.go: a (possibly multi-valued) relative DN. -/
structure RelativeDN where
  Attributes : List AttributeTypeAndValue
deriving DecidableEq

/-- dn.go: a distinguished name, outermost RDN first. -/
structure DN where
  RDNs : List RelativeDN
deriving DecidableEq

/-- dn_util.go line 12: the package-level variable `RDNCompareFold`,
true by default.  The comparison functions below take the current value
of the variable as their `fold` argument; this constant is its default. -/
def RDNCompareFold : Bool := true

/-- Models `strings.ToLower` (ASCII-faithful: `Char.toLower` lowercases
exactly the ASCII uppercase letters; the Unicode cases Go also folds do
not occur in the inputs of the theorems below). -/
def goToLower (s : String) : String := ⟨s.data.map Char.toLower⟩

/-- Models `strings.EqualFold` (ASCII-faithful, as for `goToLower`). -/
def goEqualFold (a b : String) : Bool := goToLower a == goToLower b

/-- dn_util.go lines 60-79, `RelativeDN.Equal`: requires equal attribute
counts and compares attributes POSITIONALLY (index `i` against index
`i`); types via `strings.ToLower`, values via `strings.EqualFold` when
`RDNCompareFold` is set and exact equality otherwise. -/
def RelativeDN.Equal (fold : Bool) (r o : RelativeDN) : Bool :=
  r.Attributes.length == o.Attributes.length &&
    (r.Attributes.zip o.Attributes).all fun pr =>
      goToLower pr.1.attrType == goToLower pr.2.attrType &&
        (if fold then goEqualFold pr.1.attrValue pr.2.attrValue
         else pr.1.attrValue == pr.2.attrValue)

/-- dn_util.go lines 46-56, `DN.Equal`: equal RDN counts and positional
RDN comparison. -/
def DN.Equal (fold : Bool) (dn other : DN) : Bool :=
  dn.RDNs.length == other.RDNs.length &&
    (dn.RDNs.zip other.RDNs).all fun pr => RelativeDN.Equal fold pr.1 pr.2

/-- dn_util.go lines 82-93, `DN.IsSubordinate`: false unless `dn` has
strictly more RDNs than `other`; otherwise each RDN of `other` must equal
the corresponding RDN of `dn` shifted by the length difference. -/
def DN.IsSubordinate (fold : Bool) (dn other : DN) : Bool :=
  if dn.RDNs.length ≤ other.RDNs.length then false
  else
    (other.RDNs.zip (dn.RDNs.drop (dn.RDNs.length - other.RDNs.length))).all
      fun pr => RelativeDN.Equal fold pr.1 pr.2

/-- dn_util.go lines 111-117, `DN.Strip`: returns `ErrDNNotSubordinate`
(modelled as the boolean `true` in the second component) and leaves the
DN unchanged unless `base` is a proper parent; otherwise truncates to the
first `len(dn.RDNs) - len(base.RDNs)` RDNs. -/
def DN.Strip (fold : Bool) (dn base : DN) : DN × Bool :=
  if DN.IsSubordinate fold dn base then
    (⟨dn.RDNs.take (dn.RDNs.length - base.RDNs.length)⟩, false)
  else (dn, true)

/-- The DN equality of the claim, taken from its words: same RDN count,
order of attributes within an RDN not significant, attribute types
case-insensitive, attribute values case-sensitive. -/
def claimDNEqualSpec (a b : DN) : Prop :=
  List.Forall₂ (fun r o =>
    (r.Attributes.map fun av => (goToLower av.attrType, av.attrValue)).Perm
      (o.Attributes.map fun av => (goToLower av.attrType, av.attrValue)))
    a.RDNs b.RDNs

/-- Positional boolean list comparison agrees with `List.Forall₂`. -/
theorem zipAll_iff_forall2 {α β : Type} (p : α → β → Bool) :
    ∀ (l1 : List α) (l2 : List β),
      ((l1.length == l2.length && (l1.zip l2).all fun pr => p pr.1 pr.2) = true ↔
        List.Forall₂ (fun a b => p a b = true) l1 l2) := by
  intro l1
  induction l1 with
  | nil =>
    intro l2
    cases l2 <;> simp
  | cons a t ih =>
    intro l2
    cases l2 with
    | nil => simp
    | cons b t2 =>
      simp only [List.length_cons, List.zip_cons_cons, List.all_cons,
        List.forall₂_cons, Bool.and_eq_true, beq_iff_eq, Nat.add_right_cancel_iff]
      constructor
      · rintro ⟨hl, hp, ha⟩
        exact ⟨hp, (ih t2).mp (by simp [hl, ha])⟩
      · rintro ⟨hp, hf⟩
        have := (ih t2).mpr hf
        simp only [Bool.and_eq_true, beq_iff_eq] at this
        exact ⟨this.1, hp, this.2⟩

end Ldap

namespace Ldap

/-- C3 (amended): `Equal(a,b)` is true iff `a` and `b` have the same
number of RDNs and POSITIONALLY corresponding RDNs have the same number
of attributes with positionally corresponding attributes whose types
match case-insensitively and whose values match case-insensitively when
`RDNCompareFold` is true (the default) and case-sensitively when it is
false.  In particular, reordering the attributes inside a multi-valued
RDN can change the result of `Equal`. -/
theorem DN_Equal_positional (fold : Bool) (a b : DN) :
    DN.Equal fold a b = true ↔
      List.Forall₂ (fun r o =>
        List.Forall₂ (fun av ov =>
          goToLower av.attrType = goToLower ov.attrType ∧
            (if fold then goToLower av.attrValue = goToLower ov.attrValue
             else av.attrValue = ov.attrValue))
          r.Attributes o.Attributes)
        a.RDNs b.RDNs := by
  have hattr : ∀ r o : RelativeDN,
      RelativeDN.Equal fold r o = true ↔
        List.Forall₂ (fun av ov =>
          goToLower av.attrType = goToLower ov.attrType ∧
            (if fold then goToLower av.attrValue = goToLower ov.attrValue
             else av.attrValue = ov.attrValue)) r.Attributes o.Attributes := by
    intro r o
    rw [RelativeDN.Equal,
      zipAll_iff_forall2 (fun av ov : AttributeTypeAndValue =>
        goToLower av.attrType == goToLower ov.attrType &&
          (if fold then goEqualFold av.attrValue ov.attrValue
           else av.attrValue == ov.attrValue)) r.Attributes o.Attributes]
    constructor
    · refine List.Forall₂.imp fun av ov h2 => ?_
      cases fold <;>
        simpa [goEqualFold, Bool.and_eq_true, beq_iff_eq] using h2
    · refine List.Forall₂.imp fun av ov h2 => ?_
      cases fold <;>
        simpa [goEqualFold, Bool.and_eq_true, beq_iff_eq] using h2
  rw [DN.Equal, zipAll_iff_forall2 (RelativeDN.Equal fold) a.RDNs b.RDNs]
  constructor
  · exact List.Forall₂.imp fun r o h => (hattr r o).mp h
  · exact List.Forall₂.imp fun r o h => (hattr r o).mpr h

/-- Witness for the amended DN equality theorem: a two-RDN pair with a
type-case difference and, under the default fold, a value-case
difference, accepted by `Equal`. -/
theorem DN_Equal_positional_witness :
    DN.Equal RDNCompareFold
      ⟨[⟨[⟨"CN", "Someone"⟩]⟩, ⟨[⟨"dc", "example"⟩]⟩]⟩
      ⟨[⟨[⟨"cn", "someone"⟩]⟩, ⟨[⟨"dc", "example"⟩]⟩]⟩ = true :=
  (DN_Equal_positional RDNCompareFold _ _).mpr
    (List.Forall₂.cons (List.Forall₂.cons (by decide) List.Forall₂.nil)
      (List.Forall₂.cons (List.Forall₂.cons (by decide) List.Forall₂.nil)
        List.Forall₂.nil))

/-- C3 (counterexample): the claim fails on the code in both directions
at concrete inputs, under the default value of `RDNCompareFold`.
First, `Equal` identifies `cn=x` with `cn=X` although the values differ
case-sensitively, so the claimed case-sensitive value comparison does not
hold.  Second, `Equal` distinguishes the multi-valued RDN
`cn=a+ou=b` from its reordering `ou=b+cn=a` although the claim makes
attribute order within an RDN irrelevant. -/
theorem DN_Equal_claim_counterexample :
    ¬ (DN.Equal RDNCompareFold ⟨[⟨[⟨"cn", "x"⟩]⟩]⟩ ⟨[⟨[⟨"cn", "X"⟩]⟩]⟩ = true ↔
        claimDNEqualSpec ⟨[⟨[⟨"cn", "x"⟩]⟩]⟩ ⟨[⟨[⟨"cn", "X"⟩]⟩]⟩) ∧
    ¬ (DN.Equal RDNCompareFold
          ⟨[⟨[⟨"cn", "a"⟩, ⟨"ou", "b"⟩]⟩]⟩ ⟨[⟨[⟨"ou", "b"⟩, ⟨"cn", "a"⟩]⟩]⟩ = true ↔
        claimDNEqualSpec
          ⟨[⟨[⟨"cn", "a"⟩, ⟨"ou", "b"⟩]⟩]⟩ ⟨[⟨[⟨"ou", "b"⟩, ⟨"cn", "a"⟩]⟩]⟩) := by
  constructor
  · intro h
    have h2 := h.mp (by decide)
    rw [claimDNEqualSpec] at h2
    obtain ⟨hperm, -⟩ := List.forall₂_cons.mp h2
    simp only [List.map_cons, List.map_nil] at hperm
    exact absurd (List.perm_singleton.mp hperm) (by decide)
  · intro h
    have h2 := h.mpr ?_
    · exact absurd h2 (by decide)
    · refine List.forall₂_cons.mpr ⟨?_, List.Forall₂.nil⟩
      simpa using List.Perm.swap
        ((goToLower "ou", "b") : String × String) (goToLower "cn", "a") []

end Ldap

namespace Ldap

/-- C10: Strip atomicity.  When `base` is not a proper parent of `dn`
(`IsSubordinate` false, which in particular holds whenever `base` has at
least as many RDNs as `dn`), `Strip` returns `ErrDNNotSubordinate` (the
`true` flag) with `dn` unchanged; when `IsSubordinate` holds, `Strip`
succeeds and removes exactly the last `len(base.RDNs)` RDNs: the result
is the prefix of `dn.RDNs` of length `len(dn.RDNs) - len(base.RDNs)`,
and the removed suffix has length `len(base.RDNs)`. -/
theorem DN_Strip_spec (fold : Bool) (dn base : DN) :
    (DN.IsSubordinate fold dn base = false →
      DN.Strip fold dn base = (dn, true)) ∧
    (dn.RDNs.length ≤ base.RDNs.length →
      DN.IsSubordinate fold dn base = false) ∧
    (DN.IsSubordinate fold dn base = true →
      DN.Strip fold dn base =
        (⟨dn.RDNs.take (dn.RDNs.length - base.RDNs.length)⟩, false) ∧
      base.RDNs.length < dn.RDNs.length ∧
      (DN.Strip fold dn base).1.RDNs.length =
        dn.RDNs.length - base.RDNs.length ∧
      dn.RDNs = (DN.Strip fold dn base).1.RDNs ++
        dn.RDNs.drop (dn.RDNs.length - base.RDNs.length) ∧
      (dn.RDNs.drop (dn.RDNs.length - base.RDNs.length)).length =
        base.RDNs.length) := by
  refine ⟨fun hno => ?_, fun hle => ?_, fun hyes => ?_⟩
  · rw [DN.Strip, hno]
    simp
  · rw [DN.IsSubordinate, if_pos hle]
  · have hlen : base.RDNs.length < dn.RDNs.length := by
      by_contra hge
      rw [DN.IsSubordinate, if_pos (Nat.le_of_not_lt hge)] at hyes
      exact Bool.false_ne_true hyes
    refine ⟨by rw [DN.Strip, hyes]; simp, hlen, ?_, ?_, ?_⟩
    · rw [DN.Strip, hyes]
      simp only [if_true, List.length_take]
      omega
    · rw [DN.Strip, hyes]
      simp only [if_true]
      exact (List.take_append_drop _ _).symm
    · rw [List.length_drop]
      omega

/-- Witness for the Strip theorem: a three-RDN DN stripped of its
two-RDN base, and the same call with the roles of the arguments flipped
(not subordinate, so Strip reports the error and leaves the DN alone). -/
theorem DN_Strip_spec_witness :
    DN.Strip RDNCompareFold
        ⟨[⟨[⟨"cn", "someone"⟩]⟩, ⟨[⟨"dc", "example"⟩]⟩, ⟨[⟨"dc", "org"⟩]⟩]⟩
        ⟨[⟨[⟨"dc", "example"⟩]⟩, ⟨[⟨"dc", "org"⟩]⟩]⟩ =
      (⟨[⟨[⟨"cn", "someone"⟩]⟩]⟩, false) ∧
    DN.Strip RDNCompareFold
        ⟨[⟨[⟨"dc", "example"⟩]⟩, ⟨[⟨"dc", "org"⟩]⟩]⟩
        ⟨[⟨[⟨"cn", "someone"⟩]⟩, ⟨[⟨"dc", "example"⟩]⟩, ⟨[⟨"dc", "org"⟩]⟩]⟩ =
      (⟨[⟨[⟨"dc", "example"⟩]⟩, ⟨[⟨"dc", "org"⟩]⟩]⟩, true) :=
  ⟨by
    have h := ((DN_Strip_spec RDNCompareFold
      ⟨[⟨[⟨"cn", "someone"⟩]⟩, ⟨[⟨"dc", "example"⟩]⟩, ⟨[⟨"dc", "org"⟩]⟩]⟩
      ⟨[⟨[⟨"dc", "example"⟩]⟩, ⟨[⟨"dc", "org"⟩]⟩]⟩).2.2 (by decide)).1
    simpa using h,
   by
    have h := (DN_Strip_spec RDNCompareFold
      ⟨[⟨[⟨"dc", "example"⟩]⟩, ⟨[⟨"dc", "org"⟩]⟩]⟩
      ⟨[⟨[⟨"cn", "someone"⟩]⟩, ⟨[⟨"dc", "example"⟩]⟩, ⟨[⟨"dc", "org"⟩]⟩]⟩).1
      (by decide)
    simpa using h⟩

end Ldap

namespace Ldap

/-- Size of the Go `uint64` type: conn.go keeps the messageID counter in
a `uint64`, so the increment at line 218 wraps modulo `2 ^ 64`. -/
def uint64Mod : Nat := 2 ^ 64

/-- conn.go line 218: `messageID++` on the `uint64` counter. -/
def nextCounter (id : Nat) : Nat := (id + 1) % uint64Mod

/-- conn.go lines 214-218: the ID handed out on the k-th receive from
`chanMessageID` (counting from zero).  The counter starts at 1
(`var messageID uint64 = 1`) and is incremented after each send. -/
def nthMessageID : Nat → Nat
  | 0 => 1
  | k + 1 => nextCounter (nthMessageID k)

/-- Channel availability of a connection, as seen by a caller:
`chanMessageID` and `chanMessage` are set to nil (after being closed) by
the deferred block of `processMessages`, `chanMessage` strictly first
(conn.go lines 196-212). -/
structure ConnChans where
  msgIDChanOpen : Bool
  msgChanOpen : Bool
deriving DecidableEq

/-- conn.go lines 129-137 `nextMessageID`: receives the counter value
while the ID channel is available and returns 0 once it is gone. -/
def nextMessageID (st : ConnChans) (counter : Nat) : Nat :=
  if st.msgIDChanOpen then counter else 0

/-- conn.go lines 180-194 `sendMessage`: refuses with a network error
once `chanMessage` is nil, so nothing is written for the request. -/
def sendMessage (st : ConnChans) : GoResult Unit :=
  if st.msgChanOpen then .ok () else .err ErrorNetwork

theorem nthMessageID_formula : ∀ k, nthMessageID k = (k + 1) % uint64Mod := by
  intro k
  induction k with
  | zero =>
    rw [nthMessageID, Nat.mod_eq_of_lt]
    rw [uint64Mod]
    norm_num
  | succ n ih =>
    simp only [nthMessageID, nextCounter, ih, uint64Mod]
    omega

/-- C5 (counterexample): the uint64 counter wraps.  After `2 ^ 64 - 1`
assignments the next ID handed out is 0 — on a connection whose channels
are still open, so the request would also be sent — contradicting the
claim that every assigned messageID is positive and that 0 is never
handed out for a request that is subsequently sent. -/
theorem nextMessageID_wraps_to_zero :
    nthMessageID (2 ^ 64 - 1) = 0 ∧
    nextMessageID ⟨true, true⟩ (nthMessageID (2 ^ 64 - 1)) = 0 ∧
    sendMessage ⟨true, true⟩ = .ok () := by
  have h := nthMessageID_formula (2 ^ 64 - 1)
  rw [Nat.sub_add_cancel (by norm_num), uint64Mod, Nat.mod_self] at h
  exact ⟨h, by rw [nextMessageID, if_pos rfl, h], rfl⟩

/-- C5 (amended): messageID discipline below the wrap.  For the first
`2 ^ 64 - 1` assignments the k-th messageID handed out is exactly `k + 1`:
positive, strictly increasing, starting from 1; and whenever
`nextMessageID` returns 0 — which below the wrap happens only once the ID
channel is gone, after `processMessages` has already discarded
`chanMessage` — `sendMessage` refuses the request, so no request is sent
with messageID 0. -/
theorem messageID_discipline (k : Nat) (hk : k < 2 ^ 64 - 1) :
    nthMessageID k = k + 1 ∧ 0 < nthMessageID k ∧
    (∀ j, j < k → nthMessageID j < nthMessageID k) ∧
    (∀ st : ConnChans, (st.msgIDChanOpen = false → st.msgChanOpen = false) →
      nextMessageID st (nthMessageID k) = 0 →
      sendMessage st = .err ErrorNetwork) := by
  have hval : ∀ j, j ≤ k → nthMessageID j = j + 1 := by
    intro j hj
    rw [nthMessageID_formula, Nat.mod_eq_of_lt]
    rw [uint64Mod]
    omega
  have hk1 := hval k le_rfl
  refine ⟨hk1, by rw [hk1]; omega, fun j hj => ?_, fun st hinv h0 => ?_⟩
  · rw [hk1, hval j (Nat.le_of_lt hj)]
    omega
  · rw [nextMessageID, hk1] at h0
    split_ifs at h0 with hopen
    all_goals
      have hmc : st.msgChanOpen = false :=
        hinv (by revert hopen; cases st.msgIDChanOpen <;> simp)
      rw [sendMessage, hmc]
      simp

/-- Witness for the amended messageID theorem at k = 5. -/
theorem messageID_discipline_witness : nthMessageID 5 = 6 :=
  (messageID_discipline 5 (by norm_num)).1

/-- Connection state relevant to `Close` (conn.go lines 105-126):
the `isClosed` latch and whether `chanMessage` is still set. -/
structure CloseState where
  isClosed : Bool
  msgChanOpen : Bool
deriving DecidableEq

/-- Externally visible side effects of a `Close` call. -/
inductive CloseEffect where
  | quitMessage
  | netClose
deriving DecidableEq

/-- conn.go lines 105-126 `Close`, under the `closeLock` mutex.  When the
`isClosed` latch is set the call returns nil immediately with no side
effects.  Otherwise it performs the quit handshake (after which
`processMessages` has closed and discarded the channels), then closes the
network connection; the latch is set only when the network close succeeds
(`netOk`).  A call that reaches the quit send after the channels are
already gone blocks forever on the nil channel; this non-returning case
is modelled as `none`. -/
def closeConn (netOk : Bool) (st : CloseState) :
    Option (CloseState × List CloseEffect × Option Nat) :=
  if st.isClosed then some (st, [], none)
  else if st.msgChanOpen = false then none
  else if netOk then some (⟨true, false⟩, [.quitMessage, .netClose], none)
  else some (⟨false, false⟩, [.quitMessage, .netClose], some ErrorNetwork)

/-- C8 (counterexample): the claim fails after a first `Close` that
completed with the network-close error of conn.go line 121.  Starting
from a fresh open connection, such a first call returns the
`ErrorNetwork` result, having performed the quit handshake (so
`processMessages` has already closed and discarded `chanMessage`) but
leaving the `isClosed` latch unset.  A second `Close` then passes the
latch check and blocks forever on the quit send to the nil channel
(conn.go line 115) — whatever the network layer would now do — instead
of returning immediately as a no-op. -/
theorem close_after_failed_close_blocks :
    closeConn false ⟨false, true⟩ =
      some (⟨false, false⟩, [CloseEffect.quitMessage, CloseEffect.netClose],
        some ErrorNetwork) ∧
    closeConn true ⟨false, false⟩ = none ∧
    closeConn false ⟨false, false⟩ = none :=
  ⟨rfl, rfl, rfl⟩

/-- C8 (amended): Close idempotence holds only after an error-free first
`Close`.  If a first `Close` completed without error, the `isClosed`
latch is set and a second `Close` (whatever the network layer would do)
returns immediately with no error, performs no side effect — in
particular writes nothing to the socket — and leaves the connection
state unchanged.  If instead the first `Close` returned an error, the
latch is unset while the channels are already gone, and a second `Close`
does not return at all: it blocks forever on the quit send to the nil
`chanMessage`. -/
theorem close_idempotent_after_success (netOk netOk2 : Bool)
    (st st2 : CloseState) (effs : List CloseEffect) (res : Option Nat)
    (h : closeConn netOk st = some (st2, effs, res)) :
    (res = none → closeConn netOk2 st2 = some (st2, [], none)) ∧
    (∀ e, res = some e → closeConn netOk2 st2 = none) := by
  unfold closeConn at h ⊢
  split_ifs at h with h1 h2 h3 <;>
    first
      | (simp only [Option.some.injEq, Prod.mk.injEq] at h
         obtain ⟨rfl, rfl, rfl⟩ := h
         refine ⟨fun hres => ?_, fun e hres => ?_⟩ <;>
           first
             | exact Option.noConfusion hres
             | rw [if_pos h1]
             | simp)
      | simp at h

/-- Witness for the amended Close theorem: a fresh open connection,
closed successfully, then closed a second time (a no-op), and closed
with a failing network close, after which the second call blocks. -/
theorem close_idempotent_after_success_witness :
    closeConn true ⟨true, false⟩ = some (⟨true, false⟩, [], none) ∧
    closeConn true ⟨false, false⟩ = none :=
  ⟨(close_idempotent_after_success true true ⟨false, true⟩ ⟨true, false⟩
      [.quitMessage, .netClose] none rfl).1 rfl,
   (close_idempotent_after_success false true ⟨false, true⟩ ⟨false, false⟩
      [.quitMessage, .netClose] (some ErrorNetwork) rfl).2 ErrorNetwork rfl⟩

end Ldap

namespace Ldap

/-- One server response to a paged Search: either the Search call fails,
or a full page arrives (its entries, and the cookie of the Paging result
control when one is attached to the SearchResultDone). -/
inductive PageOutcome where
  | failure
  | page (entries : List String) (ctl : Option (List Char))
deriving DecidableEq

/-- Observable outcome of `SearchWithPaging` (search.go lines 107-154):
accumulated entries, the `(pagingSize, cookie)` of every SearchRequest
issued, whether the call returned an error, and the liveness and cookie
of the `PagingControl` variable when the loop was left. -/
structure SWPState where
  entries : List String
  requests : List (Nat × List Char)
  errored : Bool
  pagingLive : Bool
  lastCookie : List Char
deriving DecidableEq

/-- The `for` loop of `SearchWithPaging` (search.go lines 115-146): one
`l.Search` per iteration (logged with the current paging size and
cookie); on error the function returns at once; a missing Paging result
control or an empty cookie sets `PagingControl = nil` and breaks; a
nonempty cookie is copied into the control for the next request. -/
def swpLoop (size : Nat) (cookie : List Char) (acc : List String) :
    List PageOutcome → SWPState
  | [] =>
    { entries := acc, requests := [(size, cookie)], errored := true,
      pagingLive := true, lastCookie := cookie }
  | .failure :: _ =>
    { entries := acc, requests := [(size, cookie)], errored := true,
      pagingLive := true, lastCookie := cookie }
  | .page es ctl :: rest =>
    match ctl with
    | none =>
      { entries := acc ++ es, requests := [(size, cookie)], errored := false,
        pagingLive := false, lastCookie := cookie }
    | some c =>
      if c.isEmpty then
        { entries := acc ++ es, requests := [(size, cookie)], errored := false,
          pagingLive := false, lastCookie := cookie }
      else
        let st := swpLoop size c (acc ++ es) rest
        { st with requests := (size, cookie) :: st.requests }

/-- search.go lines 107-154 `SearchWithPaging`: runs the loop with an
initial empty cookie; on error the partial result is returned
immediately (lines 117-119), skipping the release block; otherwise, if
`PagingControl` were still non-nil after the loop, a final request with
paging size 0 and the last cookie would be issued (lines 148-151). -/
def SearchWithPaging (size : Nat) (server : List PageOutcome) : SWPState :=
  let st := swpLoop size [] [] server
  if st.errored then st
  else if st.pagingLive then
    { st with requests := st.requests ++ [(0, st.lastCookie)] }
  else st

theorem swpLoop_pages (size : Nat) :
    ∀ (pages : List (List String × List Char)) (cookie : List Char)
      (acc fin : List String) (finCtl : Option (List Char))
      (rest : List PageOutcome),
      (∀ pr ∈ pages, pr.2 ≠ []) → (finCtl = none ∨ finCtl = some []) →
      swpLoop size cookie acc
          (pages.map (fun pr => PageOutcome.page pr.1 (some pr.2)) ++
            (PageOutcome.page fin finCtl :: rest)) =
        { entries := acc ++ (pages.map Prod.fst).join ++ fin,
          requests := (size, cookie) :: pages.map (fun pr => (size, pr.2)),
          errored := false, pagingLive := false,
          lastCookie := (pages.map Prod.snd).getLastD cookie } := by
  intro pages
  induction pages with
  | nil =>
    intro cookie acc fin finCtl rest hne hfin
    rcases hfin with rfl | rfl
    · simp [swpLoop]
    · simp [swpLoop]
  | cons pr t ih =>
    intro cookie acc fin finCtl rest hne hfin
    have hprc : pr.2 ≠ [] := hne pr (by simp)
    simp only [List.map_cons, List.cons_append, swpLoop, List.append_eq]
    rw [if_neg (by simpa [List.isEmpty_iff] using hprc)]
    rw [ih pr.2 (acc ++ pr.1) fin finCtl rest
      (fun q hq => hne q (by simp [hq])) hfin]
    simp only [List.map_cons, List.join_cons, List.getLastD_cons, List.append_assoc]

/-- C4: Paging termination.  For every paged search against a server
trace made of pages carrying nonempty cookies followed by a
SearchResultDone with a missing Paging control or an empty cookie
(anything the server might send afterwards is irrelevant),
`SearchWithPaging` issues exactly one Search per page — the first with an
empty cookie, each later one carrying the cookie of the previous page —
stops at that first terminal page, returns no error, and its entries are
exactly the concatenation of the per-page entries, so their number is
the sum of the per-page entry counts. -/
theorem SearchWithPaging_termination (size : Nat)
    (pages : List (List String × List Char)) (fin : List String)
    (finCtl : Option (List Char)) (rest : List PageOutcome)
    (hne : ∀ pr ∈ pages, pr.2 ≠ [])
    (hfin : finCtl = none ∨ finCtl = some []) :
    (SearchWithPaging size
        (pages.map (fun pr => PageOutcome.page pr.1 (some pr.2)) ++
          (PageOutcome.page fin finCtl :: rest))).entries =
        (pages.map Prod.fst).join ++ fin ∧
    (SearchWithPaging size
        (pages.map (fun pr => PageOutcome.page pr.1 (some pr.2)) ++
          (PageOutcome.page fin finCtl :: rest))).entries.length =
        ((pages.map Prod.fst).map List.length).sum + fin.length ∧
    (SearchWithPaging size
        (pages.map (fun pr => PageOutcome.page pr.1 (some pr.2)) ++
          (PageOutcome.page fin finCtl :: rest))).requests =
        (size, ([] : List Char)) :: pages.map (fun pr => (size, pr.2)) ∧
    (SearchWithPaging size
        (pages.map (fun pr => PageOutcome.page pr.1 (some pr.2)) ++
          (PageOutcome.page fin finCtl :: rest))).requests.length =
        pages.length + 1 ∧
    (SearchWithPaging size
        (pages.map (fun pr => PageOutcome.page pr.1 (some pr.2)) ++
          (PageOutcome.page fin finCtl :: rest))).errored = false := by
  rw [SearchWithPaging, swpLoop_pages size pages [] [] fin finCtl rest hne hfin]
  refine ⟨by simp, ?_, by simp, by simp, by simp⟩
  simp [List.length_join]

/-- Witness for the paging termination theorem: one page with cookie
`c1` followed by a done carrying an empty cookie. -/
theorem SearchWithPaging_termination_witness :
    (SearchWithPaging 5
        ([(["a"], "c1".data)].map (fun pr => PageOutcome.page pr.1 (some pr.2)) ++
          (PageOutcome.page ["b"] (some []) :: []))).requests =
      (5, ([] : List Char)) :: [(["a"], "c1".data)].map (fun pr => (5, pr.2)) :=
  (SearchWithPaging_termination 5 [(["a"], "c1".data)] ["b"] (some []) []
    (by decide) (Or.inr rfl)).2.2.1

end Ldap

namespace Ldap

/-- Whenever the paging loop exits without an error, it has already set
`PagingControl` to nil: every `break` is preceded by `PagingControl =
nil` (search.go lines 135-137 and 141-143). -/
theorem swpLoop_no_release : ∀ (server : List PageOutcome) (size : Nat)
    (cookie : List Char) (acc : List String),
    (swpLoop size cookie acc server).errored = false →
    (swpLoop size cookie acc server).pagingLive = false := by
  intro server
  induction server with
  | nil =>
    intro size cookie acc h
    simp [swpLoop] at h
  | cons o rest ih =>
    intro size cookie acc h
    cases o with
    | failure => simp [swpLoop] at h
    | page es ctl =>
      cases ctl with
      | none => simp [swpLoop]
      | some c =>
        by_cases hc : c.isEmpty
        · simp [swpLoop, hc]
        · simp only [swpLoop, if_neg hc] at h ⊢
          exact ih _ _ _ h

/-- C6 (code evaluation): the pageSize-0 release request is never sent.
On the abort trace — a first page with the nonempty cookie `C1`, then a
failing Search — `SearchWithPaging` returns the error having issued
exactly two requests, both with the regular page size, none with page
size 0, although `PagingControl` is still live with cookie `C1`; the
error return (search.go lines 117-119) skips the release block.  More
generally `SearchWithPaging` always coincides with its bare loop: on
error-free exits `PagingControl` is already nil, so the release block
(lines 148-151) is unreachable on every input. -/
theorem SearchWithPaging_abort_no_release :
    SearchWithPaging 5 [PageOutcome.page ["e1"] (some "C1".data),
        PageOutcome.failure] =
      { entries := ["e1"], requests := [(5, []), (5, "C1".data)],
        errored := true, pagingLive := true, lastCookie := "C1".data } ∧
    (∀ pr ∈ (SearchWithPaging 5 [PageOutcome.page ["e1"] (some "C1".data),
        PageOutcome.failure]).requests, pr.1 = 5) ∧
    ∀ (size : Nat) (server : List PageOutcome),
      SearchWithPaging size server = swpLoop size [] [] server := by
  refine ⟨by decide, by decide, fun size server => ?_⟩
  simp only [SearchWithPaging]
  rcases herr : (swpLoop size [] [] server).errored
  · simp [herr, swpLoop_no_release server size [] [] herr]
  · simp [herr]

end Ldap

namespace Ldap

/-- LDAP application tag of a BindRequest. -/
def ApplicationBindRequest : Nat := 0

/-- bind.go (v3 variant) `SimpleBindRequest`. -/
structure SimpleBindRequest where
  Username : String
  Password : String
  AllowEmptyPassword : Bool
deriving DecidableEq

/-- bind.go `SimpleBindRequest.encode` (lines 44-51): version 3, the
bind DN, and the password under context tag 0.  `ber.NewInteger`
serializes the version as the single byte 3. -/
def SimpleBindRequest.encode (r : SimpleBindRequest) : BerPacket :=
  .mk ClassApplication true ApplicationBindRequest []
    [.mk ClassUniversal false TagInteger [Char.ofNat 3] [],
     berNewString ClassUniversal TagOctetString r.Username.data,
     berNewString ClassContext 0 r.Password.data]

/-- bind.go `SimpleBind` (lines 54-75), up to the hand-off to
`sendMessage`: the empty-password gate at lines 55-57 fails locally with
`ErrorEmptyPassword` before anything is encoded or sent; otherwise the
encoded bind request is the (single) packet written for this call.  The
subsequent response handling talks to the server and is outside this
model. -/
def SimpleBind (r : SimpleBindRequest) : GoResult Unit × List BerPacket :=
  if r.Password = "" ∧ r.AllowEmptyPassword = false then
    (.err ErrorEmptyPassword, [])
  else (.ok (), [r.encode])

/-- bind.go `Bind` (lines 116-124): delegates to `SimpleBind` with
`AllowEmptyPassword` hard-wired to false. -/
def Bind (username password : String) : GoResult Unit × List BerPacket :=
  SimpleBind
    { Username := username, Password := password, AllowEmptyPassword := false }

/-- C7: Empty-password bind.  A `SimpleBindRequest` with an empty
password and `AllowEmptyPassword` unset fails locally with
`ErrorEmptyPassword` and writes nothing to the connection — and `Bind`
always runs with `AllowEmptyPassword` unset, so `Bind u ""` fails the
same way; with `AllowEmptyPassword` set, the bind proceeds and the wire
packet carries the empty password (the unauthenticated bind of RFC 4513
section 5.1.2). -/
theorem simpleBind_empty_password (r : SimpleBindRequest) :
    (r.Password = "" → r.AllowEmptyPassword = false →
      SimpleBind r = (.err ErrorEmptyPassword, [])) ∧
    (r.AllowEmptyPassword = true → SimpleBind r = (.ok (), [r.encode])) ∧
    (∀ u, Bind u "" = (.err ErrorEmptyPassword, [])) ∧
    (∀ u, SimpleBind ⟨u, "", true⟩ =
      (.ok (), [.mk ClassApplication true ApplicationBindRequest []
        [.mk ClassUniversal false TagInteger [Char.ofNat 3] [],
         berNewString ClassUniversal TagOctetString u.data,
         berNewString ClassContext 0 []]])) := by
  refine ⟨fun hp ha => ?_, fun ha => ?_, fun u => ?_, fun u => ?_⟩
  · rw [SimpleBind, if_pos ⟨hp, ha⟩]
  · rw [SimpleBind, if_neg]
    simp [ha]
  · rw [Bind, SimpleBind, if_pos ⟨rfl, rfl⟩]
  · rw [SimpleBind, if_neg (by simp)]
    rfl

/-- Witness for the empty-password theorem: the concrete failing request
and the concrete unauthenticated request. -/
theorem simpleBind_empty_password_witness :
    SimpleBind ⟨"cn=admin", "", false⟩ = (.err ErrorEmptyPassword, []) :=
  (simpleBind_empty_password ⟨"cn=admin", "", false⟩).1 rfl rfl

end Ldap
